import Mathlib

/-!
Shallow embedding of the fixed-width RPT table parser
(`src/rpt_to_excel.py`, function `parse_rpt_file`).

Text is modelled as `List Char`.  The Python regular-expression calls of
the source are embedded as explicit matchers with the exact backtracking
semantics of the patterns used there:

* `re.search(r'^\s*(\S+\s+)+$', content, re.MULTILINE)`  (header line),
* `re.search(r'^\s*([-]+\s+)+', content, re.MULTILINE)`  (dash line),
* `re.finditer(r'([-]+)', dash_line)`                    (column spans),
* `re.search(r'\(\d+\s+rows? affected\)', data_section)` (footer).

Note that `\s` also matches a newline, and `re.MULTILINE` only affects the
anchors `^` and `$`; hence the header/dash matches may span several
physical lines.  `$` matches at end of text or immediately before a
newline.  Greedy repetition with backtracking means: for
`^\s*(\S+\s+)+$`, the leading `\s*` and each `\S+` are forced to their
maximal runs (shrinking them puts a character of the wrong class next),
so the only choice points are the number of `(\S+\s+)` iterations and the
extent of the final `\s+`; the engine explores deepest iterations first,
and within one iteration the longest `\s+` extent first.
-/

/-- Whitespace characters of Python's regex `\s` / `str.strip` (ASCII part):
space, tab, newline, carriage return, vertical tab, form feed. -/
def wsChar (c : Char) : Bool :=
  c = ' ' || c = '\t' || c = '\n' || c = '\r' ||
  c = Char.ofNat 11 || c = Char.ofNat 12

/-- Python `str.strip()`: drop leading and trailing whitespace. -/
def pyStrip (l : List Char) : List Char :=
  ((l.dropWhile wsChar).reverse.dropWhile wsChar).reverse

/-- Python slice `l[a:b]` (with the usual clipping to the list length). -/
def pySlice (l : List Char) (a b : Nat) : List Char :=
  (l.take b).drop a

/-- Python `s.replace('\t', ' ')`. -/
def replTab (l : List Char) : List Char :=
  l.map (fun c => if c = '\t' then ' ' else c)

/-- Python `s.split('\n')`: split at every newline, keeping empty pieces. -/
def splitNl : List Char → List (List Char)
  | [] => [[]]
  | c :: rest =>
    if c = '\n' then [] :: splitNl rest
    else
      match splitNl rest with
      | [] => [[c]]
      | p :: ps => (c :: p) :: ps

/-- Length of the maximal run of characters satisfying `p` at the head. -/
def runLen (p : Char → Bool) (l : List Char) : Nat :=
  (l.takeWhile p).length

/-- Python `"pat" in l`: substring containment. -/
def containsSub (pat l : List Char) : Bool :=
  (List.range (l.length + 1)).any (fun i => pySlice l i (i + pat.length) = pat)

/-- Line-start positions of a text: offset 0 and every offset just after a
newline.  These are the candidate positions of the MULTILINE anchor `^`. -/
def lineStarts (c : List Char) : List Nat :=
  0 :: (List.range c.length).filterMap
    (fun i => if c.get? i = some '\n' then some (i + 1) else none)

/-- `$` of a MULTILINE pattern holds at offset `q`: end of text, or just
before a newline. -/
def dollarOk (c : List Char) (q : Nat) : Bool :=
  q = c.length || c.get? q = some '\n'

/-- The `(\S+\s+)` iterations of the header pattern, starting at offset `i`
(after the leading `\s*` has been consumed): each iteration records the
maximal whitespace run `(wsStart, wsEnd)` that follows one maximal
non-whitespace token.  Iterations stop when no token follows, or a token
reaches the end of the text with no whitespace after it. -/
def headerPairsF (c : List Char) : Nat → Nat → List (Nat × Nat)
  | 0, _ => []
  | fuel + 1, i =>
    if c.length ≤ i then []
    else
      let n := runLen (fun x => !wsChar x) (c.drop i)
      if n = 0 then []
      else
        let w := runLen wsChar (c.drop (i + n))
        if w = 0 then []
        else (i + n, i + n + w) :: headerPairsF c fuel (i + n + w)

/-- Each recursive step advances the offset by at least one while the
offset stays below `c.length`, so `c.length + 1` steps always suffice. -/
def headerPairs (c : List Char) (i : Nat) : List (Nat × Nat) :=
  headerPairsF c (c.length + 1) i

/-- Largest `\s+` extent `t ∈ [1, b-a]` (scanned greedily, longest first)
such that `$` holds at `a + t`; returns the match end `a + t`. -/
def lastDollar (c : List Char) (a : Nat) : Nat → Option Nat
  | 0 => none
  | b + 1 =>
    if b + 1 ≤ a then none
    else if dollarOk c (b + 1) then some (b + 1)
    else lastDollar c a b

/-- Scan the iterations' whitespace runs deepest-first for a position where
`$` can close the header match; mirrors the engine's backtracking order. -/
def scanPairs (c : List Char) : List (Nat × Nat) → Option Nat
  | [] => none
  | (a, b) :: rest =>
    match lastDollar c a b with
    | some q => some q
    | none => scanPairs c rest

/-- Attempt of `\s*(\S+\s+)+$` at line start `p`: consume the maximal
whitespace run (`\s*`), build the iterations, and close with `$`.
Returns the match end. -/
def headerMatchAt (c : List Char) (p : Nat) : Option Nat :=
  let i0 := p + runLen wsChar (c.drop p)
  scanPairs c (headerPairs c i0).reverse

/-- First position in the list where the matcher succeeds, with its end. -/
def firstMatch (f : Nat → Option Nat) : List Nat → Option (Nat × Nat)
  | [] => none
  | p :: ps =>
    match f p with
    | some q => some (p, q)
    | none => firstMatch f ps

/-- `re.search(r'^\s*(\S+\s+)+$', content, re.MULTILINE)`:
the leftmost line start where the pattern matches, with the match end. -/
def findHeaderMatch (c : List Char) : Option (Nat × Nat) :=
  firstMatch (headerMatchAt c) (lineStarts c)

/-- The `([-]+\s+)` iterations of the dash pattern starting at offset `i`:
each iteration is one maximal dash run followed by a maximal whitespace
run; the pair records `(wsStart, wsEnd)`. -/
def dashPairsF (c : List Char) : Nat → Nat → List (Nat × Nat)
  | 0, _ => []
  | fuel + 1, i =>
    if c.length ≤ i then []
    else
      let n := runLen (fun x => x = '-') (c.drop i)
      if n = 0 then []
      else
        let w := runLen wsChar (c.drop (i + n))
        if w = 0 then []
        else (i + n, i + n + w) :: dashPairsF c fuel (i + n + w)

def dashPairs (c : List Char) (i : Nat) : List (Nat × Nat) :=
  dashPairsF c (c.length + 1) i

/-- Attempt of `\s*([-]+\s+)+` at line start `p`: with no trailing anchor,
a greedy match ends at the end of the last iteration's whitespace run. -/
def dashMatchAt (c : List Char) (p : Nat) : Option Nat :=
  let i0 := p + runLen wsChar (c.drop p)
  match (dashPairs c i0).getLast? with
  | some pr => some pr.2
  | none => none

/-- `re.search(r'^\s*([-]+\s+)+', content, re.MULTILINE)`. -/
def findDashMatch (c : List Char) : Option (Nat × Nat) :=
  firstMatch (dashMatchAt c) (lineStarts c)

/-- `re.finditer(r'([-]+)', l)`: the maximal dash runs, in order, as
`(start, end)` offset pairs. -/
def dashRunsF (l : List Char) : Nat → Nat → List (Nat × Nat)
  | 0, _ => []
  | fuel + 1, i =>
    if l.length ≤ i then []
    else
      let skip := runLen (fun x => !(x = '-')) (l.drop i)
      let n := runLen (fun x => x = '-') (l.drop (i + skip))
      if n = 0 then []
      else (i + skip, i + skip + n) :: dashRunsF l fuel (i + skip + n)

def dashRuns (l : List Char) (i : Nat) : List (Nat × Nat) :=
  dashRunsF l (l.length + 1) i

/-- Python regex `\d`. -/
def digitChar (c : Char) : Bool := '0' ≤ c && c ≤ '9'

/-- Literal match of `lit` at offset `i` of `c`. -/
def litAt (c : List Char) (i : Nat) (lit : List Char) : Bool :=
  pySlice c i (i + lit.length) = lit

/-- Attempt of `\(\d+\s+rows? affected\)` at offset `i`; returns the match
end.  `\d+` and `\s+` are forced to their maximal runs (shrinking them
leaves a character of the same class where a different one is required),
and the optional `s` falls back to the literal only when absent. -/
def footMatchAt (c : List Char) (i : Nat) : Option Nat :=
  if c.get? i = some '(' then
    let d := runLen digitChar (c.drop (i + 1))
    if d = 0 then none
    else
      let w := runLen wsChar (c.drop (i + 1 + d))
      if w = 0 then none
      else
        let j := i + 1 + d + w
        if litAt c j ("row".toList) then
          if c.get? (j + 3) = some 's' then
            if litAt c (j + 4) (" affected)".toList) then some (j + 14) else none
          else
            if litAt c (j + 3) (" affected)".toList) then some (j + 13) else none
        else none
  else none

/-- `re.search(r'\(\d+\s+rows? affected\)', ds)`: leftmost match, scanning
every start offset. -/
def footerSearchF (c : List Char) : Nat → Nat → Option (Nat × Nat)
  | 0, _ => none
  | fuel + 1, i =>
    if c.length ≤ i then none
    else
      match footMatchAt c i with
      | some e => some (i, e)
      | none => footerSearchF c fuel (i + 1)

def footerSearch (c : List Char) : Option (Nat × Nat) :=
  footerSearchF c (c.length + 1) 0

/-- The cell token that denotes a SQL null. -/
def nullTok : List Char := "NULL".toList

/-- `value = text.strip(); if value == "NULL": value = None`. -/
def normCell (s : List Char) : Option (List Char) :=
  if pyStrip s = nullTok then none else some (pyStrip s)

/-- First cell of a data line: `line[:min(positions[0][1], len(line))]`,
stripped, with the `"NULL"` normalization. -/
def firstCellVal (positions : List (Nat × Nat)) (line : List Char) : Option (List Char) :=
  let v := pyStrip (pySlice line 0 (min (positions.headD (0, 0)).2 line.length))
  if v = nullTok then none else some v

/-- Middle cell `j` (for `1 ≤ j < positions.length`): slice from the end of
dash run `j-1` to the start of dash run `j`, clipped to the line; `None`
when the line does not reach the start offset. -/
def middleCellVal (positions : List (Nat × Nat)) (line : List Char) (j : Nat) :
    Option (List Char) :=
  let start := (positions.getD (j - 1) (0, 0)).2
  if start < line.length then
    let e := (positions.getD j (0, 0)).1
    let width := min (e - start) (line.length - start)
    let v := pyStrip (pySlice line start (start + width))
    if v = nullTok then none else some v
  else none

/-- Trailing cell: `line[positions[-1][1]:]`, stripped and normalized;
only produced when the line extends past the last dash run's end. -/
def lastCellVal (positions : List (Nat × Nat)) (line : List Char) : Option (List Char) :=
  let v := pyStrip (line.drop (positions.getLastD (0, 0)).2)
  if v = nullTok then none else some v

/-- Pad the row with `None` until it has `n` cells
(`while len(row_data) < len(column_names): row_data.append(None)`). -/
def padNulls (row : List (Option (List Char))) (n : Nat) : List (Option (List Char)) :=
  row ++ List.replicate (n - row.length) none

/-- One data line → one row: tab normalization, first cell, middle cells
for `j = 1 .. len(positions)-1`, conditional trailing cell, null padding
to `ncols` cells. -/
def processLine (positions : List (Nat × Nat)) (ncols : Nat) (line0 : List Char) :
    List (Option (List Char)) :=
  let line := replTab line0
  let row := firstCellVal positions line ::
    (List.range' 1 (positions.length - 1)).map (middleCellVal positions line)
  let row := row ++
    (if line.length > (positions.getLastD (0, 0)).2
      then [lastCellVal positions line] else [])
  padNulls row ncols

/-- `any(val is not None and val != "" for val in row_data)`. -/
def keepRow (row : List (Option (List Char))) : Bool :=
  row.any (fun v =>
    match v with
    | none => false
    | some s => !(s = []))

/-- Literal `"Completion time:"`. -/
def completionTok : List Char := "Completion time:".toList

/-- The per-line loop of the row extractor: skip lines that are blank after
stripping or contain `"Completion time:"`; process the rest; keep a row
only when some cell is neither null nor the empty string. -/
def buildRows (positions : List (Nat × Nat)) (ncols : Nat) :
    List (List Char) → List (List (Option (List Char)))
  | [] => []
  | l :: rest =>
    if pyStrip l = [] || containsSub completionTok l then
      buildRows positions ncols rest
    else
      let row := processLine positions ncols l
      if keepRow row then row :: buildRows positions ncols rest
      else buildRows positions ncols rest

/-- The whole data section → rows: truncate at the first row-count footer,
strip, split into lines, run the per-line loop. -/
def dataRows (positions : List (Nat × Nat)) (ncols : Nat) (ds : List Char) :
    List (List (Option (List Char))) :=
  let ds2 :=
    match footerSearch ds with
    | some se => ds.take se.1
    | none => ds
  buildRows positions ncols (splitNl (pyStrip ds2))

/-- `f"Column{n}"`. -/
def columnPlaceholder (n : Nat) : List Char :=
  "Column".toList ++ (Nat.repr n).toList

/-- Column name for dash run `i` (for `1 ≤ i < positions.length`): the
header text between the end of run `i-1` and the start of run `i`,
clipped and stripped, falling back to `f"Column{i+1}"`. -/
def midName (header : List Char) (positions : List (Nat × Nat)) (i : Nat) : List Char :=
  let start := (positions.getD (i - 1) (0, 0)).2
  if start < header.length then
    let nm := pyStrip (pySlice header start (min (positions.getD i (0, 0)).1 header.length))
    if nm = [] then columnPlaceholder (i + 1) else nm
  else columnPlaceholder (i + 1)

/-- Column names: first name from `header[:min(positions[0][1], len)]`,
middle names from the inter-run gaps, and one extra trailing name when
non-blank header text remains after the last run's end. -/
def buildNames (header : List Char) (positions : List (Nat × Nat)) : List (List Char) :=
  let first := pyStrip (pySlice header 0 (min (positions.headD (0, 0)).2 header.length))
  let base := first :: (List.range' 1 (positions.length - 1)).map (midName header positions)
  let lastEnd := (positions.getLastD (0, 0)).2
  if header.length > lastEnd then
    let lastCol := pyStrip (header.drop lastEnd)
    if lastCol = [] then base else base ++ [lastCol]
  else base

/-- `parse_rpt_file`, after the file read: header match, dash match, spans,
column names, data section, rows.  `none` is the "no result" sentinel
returned on any structural failure. -/
def parseRpt (c : List Char) :
    Option (List (List Char) × List (List (Option (List Char)))) :=
  match findHeaderMatch c with
  | none => none
  | some he =>
    let headerLine := replTab (pyStrip (pySlice c he.1 he.2))
    match findDashMatch c with
    | none => none
    | some de =>
      let dashLine := replTab (pySlice c de.1 de.2)
      match dashRuns dashLine 0 with
      | [] => none
      | p0 :: prest =>
        let positions := p0 :: prest
        let names := buildNames headerLine positions
        some (names, dataRows positions names.length (c.drop de.2))

/-! ## Concrete documents used as test inputs -/

/-- The end-to-end scenario of the spec (six lines, trailing newline). -/
def c1doc : List Char :=
  ("ID   NAME     AMOUNT\n---- -------- ------\n1    Alice    100.00\n"
    ++ "2    NULL     50.00\n\n(2 rows affected)\n").toList

/-- A document whose data line reaches past the last span while no trailing
column name exists (the header match stops at `"A "`). -/
def c2doc : List Char := "A \nB x\n-- --\n11 22 33".toList

/-- A document containing a whitespace-separated token line (`"A B"`). -/
def c3doc : List Char := "A B\nxy".toList

/-- A document on which the header match spans both physical lines. -/
def c3doc2 : List Char := "ID NAME\n1 2\n".toList

/-- A document whose first line-start dash match is on the line
`"-- junk"`, which does not consist of dash runs only. -/
def c4doc : List Char := "A\n-- junk\n-- --\n".toList

/-- A document with the spec's dash line followed by a non-dash line. -/
def c4doc2 : List Char := "H\n---- --- ------\nx\n".toList

/-- A document with an aligned header, so the inter-run gap of span 1 is
blank and the placeholder name is used. -/
def c5doc : List Char := "AA BB\n-- --\nx\n".toList

/-- A data section with a row-count footer followed by further text. -/
def c7ds : List Char := "1 2\n(2 rows affected)\nGARBAGE".toList

/-- A document with no header-pattern match at any line start. -/
def c9doc : List Char := "xyz".toList

/-- A document whose separator line's final dash run ends the text. -/
def c10doc : List Char := "A B\n---- ----".toList

/-- A document whose only dash run ends the text with no whitespace. -/
def c10doc2 : List Char := "A \n----".toList

/-! ## Helper lemmas -/

theorem runLen_le (p : Char → Bool) (l : List Char) : runLen p l ≤ l.length := by
  induction l with
  | nil => simp [runLen]
  | cons a t ih =>
    by_cases h : p a <;> simp [runLen, List.takeWhile_cons, h] at ih ⊢ <;> omega

theorem runLen_get (p : Char → Bool) :
    ∀ (l : List Char) (k : Nat), k < runLen p l →
      ∃ a, l.get? k = some a ∧ p a = true := by
  intro l
  induction l with
  | nil => intro k hk; simp [runLen] at hk
  | cons a t ih =>
    intro k hk
    by_cases hp : p a
    · cases k with
      | zero => exact ⟨a, rfl, hp⟩
      | succ k =>
        simp only [runLen, List.takeWhile_cons, hp, if_true, List.length_cons] at hk
        obtain ⟨b, hb, hpb⟩ := ih k (by simpa [runLen] using Nat.lt_of_succ_lt_succ hk)
        exact ⟨b, by simpa using hb, hpb⟩
    · simp [runLen, List.takeWhile_cons, hp] at hk

theorem firstMatch_split (f : Nat → Option Nat) :
    ∀ (ps : List Nat) (p e : Nat), firstMatch f ps = some (p, e) →
      f p = some e ∧ ∃ pre suf, ps = pre ++ p :: suf ∧ ∀ q ∈ pre, f q = none := by
  intro ps
  induction ps with
  | nil => intro p e h; simp [firstMatch] at h
  | cons a rest ih =>
    intro p e h
    unfold firstMatch at h
    cases hf : f a with
    | some q =>
      rw [hf] at h
      injection h with h
      injection h with h1 h2
      subst h1; subst h2
      exact ⟨hf, [], rest, rfl, by simp⟩
    | none =>
      rw [hf] at h
      obtain ⟨h1, pre, suf, h2, h3⟩ := ih p e h
      refine ⟨h1, a :: pre, suf, by rw [h2]; rfl, ?_⟩
      intro q hq
      rcases List.mem_cons.mp hq with hq | hq
      · rw [hq]; exact hf
      · exact h3 q hq

theorem footerSearchF_first (c : List Char) :
    ∀ (fuel j : Nat) (se : Nat × Nat), footerSearchF c fuel j = some se →
      j ≤ se.1 ∧ ∀ i, j ≤ i → i < se.1 → footMatchAt c i = none := by
  intro fuel
  induction fuel with
  | zero => intro j se h; simp [footerSearchF] at h
  | succ fuel ih =>
    intro j se h
    unfold footerSearchF at h
    by_cases hlen : c.length ≤ j
    · rw [if_pos hlen] at h; cases h
    · rw [if_neg hlen] at h
      cases hm : footMatchAt c j with
      | some e =>
        rw [hm] at h
        injection h with h
        subst h
        exact ⟨Nat.le_refl j, fun i h1 h2 => absurd (Nat.lt_of_le_of_lt h1 h2) (by simp)⟩
      | none =>
        rw [hm] at h
        obtain ⟨h1, h2⟩ := ih (j + 1) se h
        refine ⟨by omega, ?_⟩
        intro i hji hi
        rcases Nat.eq_or_lt_of_le hji with heq | hlt
        · rw [← heq]; exact hm
        · exact h2 i (by omega) hi

theorem dashPairsF_props (c : List Char) :
    ∀ (fuel i : Nat) (pr : Nat × Nat), pr ∈ dashPairsF c fuel i →
      pr.1 < pr.2 ∧ pr.2 ≤ c.length ∧
      ∀ k, pr.1 ≤ k → k < pr.2 → ∃ ch, c.get? k = some ch ∧ wsChar ch = true := by
  intro fuel
  induction fuel with
  | zero => intro i pr h; simp [dashPairsF] at h
  | succ fuel ih =>
    intro i pr h
    simp only [dashPairsF] at h
    by_cases h1 : c.length ≤ i
    · rw [if_pos h1] at h; simp at h
    · rw [if_neg h1] at h
      by_cases h2 : runLen (fun x => x = '-') (c.drop i) = 0
      · rw [if_pos h2] at h; simp at h
      · rw [if_neg h2] at h
        by_cases h3 :
            runLen wsChar (c.drop (i + runLen (fun x => x = '-') (c.drop i))) = 0
        · rw [if_pos h3] at h; simp at h
        · rw [if_neg h3] at h
          rcases List.mem_cons.mp h with heq | hmem
          · subst heq
            constructor
            · simp; omega
            · constructor
              · have hw := runLen_le wsChar
                  (c.drop (i + runLen (fun x => x = '-') (c.drop i)))
                rw [List.length_drop] at hw
                simp; omega
              · intro k hk1 hk2
                simp only at hk1 hk2
                set m := i + runLen (fun x => x = '-') (c.drop i) with hm
                obtain ⟨a, ha, hwa⟩ :=
                  runLen_get wsChar (c.drop m) (k - m) (by omega)
                refine ⟨a, ?_, hwa⟩
                rw [List.get?_eq_getElem?] at ha ⊢
                rw [List.getElem?_drop] at ha
                have : m + (k - m) = k := by omega
                rwa [this] at ha
          · exact ih _ pr hmem

theorem buildRows_mem (ps : List (Nat × Nat)) (n : Nat) :
    ∀ (ls : List (List Char)) (r : List (Option (List Char))),
      r ∈ buildRows ps n ls → ∃ l, r = processLine ps n l := by
  intro ls
  induction ls with
  | nil => intro r hr; simp [buildRows] at hr
  | cons l rest ih =>
    intro r hr
    unfold buildRows at hr
    by_cases hskip : (decide (pyStrip l = []) || containsSub completionTok l) = true
    · rw [if_pos hskip] at hr; exact ih r hr
    · rw [if_neg hskip] at hr
      by_cases hk : keepRow (processLine ps n l) = true
      · rw [if_pos hk] at hr
        rcases List.mem_cons.mp hr with h | h
        · exact ⟨l, h⟩
        · exact ih r h
      · rw [if_neg hk] at hr; exact ih r hr

theorem processLine_length (ps : List (Nat × Nat)) (hps : ps ≠ []) (n : Nat) (l : List Char) :
    ∃ t, t ≤ 1 ∧ (processLine ps n l).length = (ps.length + t) + (n - (ps.length + t)) := by
  have hP : 1 ≤ ps.length := List.length_pos.mpr hps
  unfold processLine padNulls
  dsimp only
  split
  · refine ⟨1, Nat.le_refl 1, ?_⟩
    simp [List.length_append, List.length_map, List.length_range']
    omega
  · refine ⟨0, Nat.zero_le 1, ?_⟩
    simp [List.length_append, List.length_map, List.length_range']
    omega

theorem buildNames_length (h : List Char) (ps : List (Nat × Nat)) (hps : ps ≠ []) :
    (buildNames h ps).length = ps.length ∨ (buildNames h ps).length = ps.length + 1 := by
  have hP : 1 ≤ ps.length := List.length_pos.mpr hps
  unfold buildNames
  dsimp only
  split
  · split
    · left; simp [List.length_range']; omega
    · right; simp [List.length_append, List.length_range']; omega
  · left; simp [List.length_range']; omega

theorem dataRows_mem (ps : List (Nat × Nat)) (n : Nat) (ds : List Char)
    (r : List (Option (List Char))) (hr : r ∈ dataRows ps n ds) :
    ∃ l, r = processLine ps n l := by
  unfold dataRows at hr
  exact buildRows_mem ps n _ r hr

/-! ## Claim theorems -/

/-- C1: on the spec's six-line scenario the code does not return
ColumnNames = ["ID","NAME","AMOUNT"] with rows [["1","Alice","100.00"],
["2",null,"50.00"]].  The header regex `^\s*(\S+\s+)+$` matches the whole
document (`\s` matches newlines), so three of the four derived column
names are wrong, and middle cells slice the gap between dash runs instead
of the field above each run, so they are all empty.  This theorem records
the actual behaviour of the code at the spec's input. -/
theorem c1_canonical_example_code_behavior :
    parseRpt c1doc = some
      (["ID".toList, "Column2".toList, "Column3".toList,
        ("---- -------- ------\n1    Alice    100.00\n"
          ++ "2    NULL     50.00\n\n(2 rows affected)").toList],
       [[some "1".toList, some [], some [], none],
        [some "2".toList, some [], some [], none]]) := by
  decide

/-- C9: whenever header detection, separator-line detection, or dash-run
extraction fails, the parser returns the `none` sentinel: no exception,
no partial table. -/
theorem c9_structural_failure_sentinel :
    (∀ c : List Char, findHeaderMatch c = none → parseRpt c = none) ∧
    (∀ c : List Char, findDashMatch c = none → parseRpt c = none) ∧
    (∀ (c : List Char) (de : Nat × Nat), findDashMatch c = some de →
      dashRuns (replTab (pySlice c de.1 de.2)) 0 = [] → parseRpt c = none) := by
  refine ⟨?_, ?_, ?_⟩
  · intro c h
    unfold parseRpt
    rw [h]
  · intro c h
    unfold parseRpt
    cases hh : findHeaderMatch c with
    | none => rfl
    | some he => rw [h]
  · intro c de h hruns
    unfold parseRpt
    cases hh : findHeaderMatch c with
    | none => rfl
    | some he =>
      rw [h]
      dsimp only
      rw [hruns]

/-- C9 witness: on `c9doc` ("xyz", no token is followed by whitespace)
header detection fails and the sentinel is returned. -/
theorem c9_structural_failure_sentinel_witness : parseRpt c9doc = none :=
  c9_structural_failure_sentinel.1 c9doc (by decide)

/-- C6: an extracted cell is null exactly when its sliced text strips to
the case-sensitive token "NULL"; any other sliced text yields the trimmed
string itself, the empty string staying distinct from null; and the first,
middle and trailing cell extractions all apply exactly this normalization
to their slices. -/
theorem c6_null_normalization :
    (∀ s : List Char, normCell s = none ↔ pyStrip s = nullTok) ∧
    (∀ s : List Char, pyStrip s ≠ nullTok → normCell s = some (pyStrip s)) ∧
    (∀ s : List Char, pyStrip s = [] → normCell s = some []) ∧
    (∀ (ps : List (Nat × Nat)) (line : List Char),
      firstCellVal ps line =
        normCell (pySlice line 0 (min (ps.headD (0, 0)).2 line.length))) ∧
    (∀ (ps : List (Nat × Nat)) (line : List Char) (j : Nat),
      (ps.getD (j - 1) (0, 0)).2 < line.length →
      middleCellVal ps line j =
        normCell (pySlice line (ps.getD (j - 1) (0, 0)).2
          ((ps.getD (j - 1) (0, 0)).2 +
            min ((ps.getD j (0, 0)).1 - (ps.getD (j - 1) (0, 0)).2)
              (line.length - (ps.getD (j - 1) (0, 0)).2)))) ∧
    (∀ (ps : List (Nat × Nat)) (line : List Char),
      lastCellVal ps line = normCell (line.drop (ps.getLastD (0, 0)).2)) := by
  refine ⟨?_, ?_, ?_, ?_, ?_, ?_⟩
  · intro s
    unfold normCell
    constructor
    · intro h
      by_cases hs : pyStrip s = nullTok
      · exact hs
      · rw [if_neg hs] at h; cases h
    · intro h; rw [if_pos h]
  · intro s h
    unfold normCell
    rw [if_neg h]
  · intro s h
    unfold normCell
    rw [h]
    have hne : ¬ (([] : List Char) = nullTok) := by decide
    rw [if_neg hne]
  · intro ps line; rfl
  · intro ps line j h
    unfold middleCellVal normCell
    dsimp only
    rw [if_pos h]
  · intro ps line; rfl

/-- C6 witness: concrete cells at every position. -/
theorem c6_null_normalization_witness :
    normCell " NULL ".toList = none ∧
    normCell "x".toList = some "x".toList ∧
    middleCellVal [(0, 2), (5, 7)] "ab NULL".toList 1 =
      normCell (pySlice "ab NULL".toList 2 (2 + min 3 5)) := by
  refine ⟨?_, ?_, ?_⟩
  · exact (c6_null_normalization.1 (" NULL ".toList)).mpr (by decide)
  · exact c6_null_normalization.2.1 ("x".toList) (by decide)
  · exact c6_null_normalization.2.2.2.2.1 [(0, 2), (5, 7)] ("ab NULL".toList) 1 (by decide)

/-- C7: the footer search finds the first occurrence of the row-count
pattern (no earlier offset matches), and the rows are computed from the
text strictly before that match start alone, so nothing at or after the
footer contributes any cell or row. -/
theorem c7_footer_truncation :
    ∀ (ds : List Char) (s e : Nat), footerSearch ds = some (s, e) →
      (∀ i, i < s → footMatchAt ds i = none) ∧
      (∀ (ps : List (Nat × Nat)) (n : Nat),
        dataRows ps n ds = buildRows ps n (splitNl (pyStrip (ds.take s)))) := by
  intro ds s e h
  refine ⟨?_, ?_⟩
  · intro i hi
    exact (footerSearchF_first ds (ds.length + 1) 0 (s, e) h).2 i (Nat.zero_le i) hi
  · intro ps n
    unfold dataRows
    rw [h]

/-- C7 witness: on `c7ds` the footer starts at offset 4; offset 2 has no
match, and the rows are those of the four-character prefix. -/
theorem c7_footer_truncation_witness :
    footMatchAt c7ds 2 = none ∧
    dataRows [(0, 1), (2, 3)] 2 c7ds =
      buildRows [(0, 1), (2, 3)] 2 (splitNl (pyStrip (c7ds.take 4))) := by
  have h := c7_footer_truncation c7ds 4 21 (by decide)
  exact ⟨h.1 2 (by decide), h.2 [(0, 1), (2, 3)] 2⟩

/-- C8: a line that strips to nothing or contains "Completion time:"
contributes no row; any other line's row is appended exactly when
`keepRow` holds of it, and `keepRow` holds exactly when some cell is
non-null and non-empty. -/
theorem c8_row_filtering :
    (∀ (ps : List (Nat × Nat)) (n : Nat) (l : List Char) (rest : List (List Char)),
      (pyStrip l = [] ∨ containsSub completionTok l = true) →
      buildRows ps n (l :: rest) = buildRows ps n rest) ∧
    (∀ (ps : List (Nat × Nat)) (n : Nat) (l : List Char) (rest : List (List Char)),
      pyStrip l ≠ [] → containsSub completionTok l = false →
      buildRows ps n (l :: rest) =
        (if keepRow (processLine ps n l) = true
          then processLine ps n l :: buildRows ps n rest
          else buildRows ps n rest)) ∧
    (∀ row : List (Option (List Char)),
      keepRow row = true ↔ ∃ s, some s ∈ row ∧ s ≠ []) := by
  refine ⟨?_, ?_, ?_⟩
  · intro ps n l rest h
    have hc : (decide (pyStrip l = []) || containsSub completionTok l) = true := by
      rcases h with h | h <;> simp [h]
    conv_lhs => rw [buildRows]
    rw [if_pos hc]
  · intro ps n l rest h1 h2
    have hc : ¬ ((decide (pyStrip l = []) || containsSub completionTok l) = true) := by
      simp [h1, h2]
    conv_lhs => rw [buildRows]
    rw [if_neg hc]
  · intro row
    unfold keepRow
    rw [List.any_eq_true]
    constructor
    · rintro ⟨v, hv, hpv⟩
      cases v with
      | none => simp at hpv
      | some s =>
        refine ⟨s, hv, ?_⟩
        simpa using hpv
    · rintro ⟨s, hs, hne⟩
      exact ⟨some s, hs, by simpa using hne⟩

/-- C8 witness: a blank line and a "Completion time:" line are dropped; a
row with one non-empty cell is kept. -/
theorem c8_row_filtering_witness :
    buildRows [(0, 1)] 1 ["   ".toList, "x".toList] = buildRows [(0, 1)] 1 ["x".toList] ∧
    buildRows [(0, 1)] 1 ["Completion time: 1".toList] = buildRows [(0, 1)] 1 [] ∧
    keepRow [some "x".toList] = true := by
  refine ⟨?_, ?_, ?_⟩
  · exact c8_row_filtering.1 [(0, 1)] 1 ("   ".toList) ["x".toList] (Or.inl (by decide))
  · exact c8_row_filtering.1 [(0, 1)] 1 ("Completion time: 1".toList) [] (Or.inr (by decide))
  · exact (c8_row_filtering.2.2 [some "x".toList]).mpr
      ⟨"x".toList, by simp, by decide⟩

/-- C2 counterexample: on `c2doc` the parser returns the two column names
["A", "Column2"] but the single returned row has three cells — the
trailing cell is extracted because the data line reaches past the last
span's end, even though no trailing column name was derived. -/
theorem c2_row_longer_than_names :
    ∃ ns rows r, parseRpt c2doc = some (ns, rows) ∧ r ∈ rows ∧ r.length ≠ ns.length := by
  refine ⟨["A".toList, "Column2".toList],
    [[some "11".toList, some [], some "33".toList]],
    [some "11".toList, some [], some "33".toList], by decide, by decide, by decide⟩

/-- C2 amended: rows shorter than the layout are backfilled with nulls up
to the column-name count, but the trailing cell is extracted whenever the
line reaches past the last span's end, whether or not a trailing column
name was derived; so every returned row has either exactly the
column-name count of cells or one more. -/
theorem c2_row_length_bounds :
    ∀ (c : List Char) (ns : List (List Char)) (rows : List (List (Option (List Char))))
      (r : List (Option (List Char))),
      parseRpt c = some (ns, rows) → r ∈ rows →
      r.length = ns.length ∨ r.length = ns.length + 1 := by
  intro c ns rows r hp hr
  unfold parseRpt at hp
  cases hh : findHeaderMatch c with
  | none => rw [hh] at hp; cases hp
  | some he =>
    rw [hh] at hp
    cases hd : findDashMatch c with
    | none => rw [hd] at hp; cases hp
    | some de =>
      rw [hd] at hp
      dsimp only at hp
      cases hdr : dashRuns (replTab (pySlice c de.1 de.2)) 0 with
      | nil => rw [hdr] at hp; cases hp
      | cons p0 prest =>
        rw [hdr] at hp
        dsimp only at hp
        injection hp with hp
        have hns : buildNames (replTab (pyStrip (pySlice c he.1 he.2))) (p0 :: prest) = ns :=
          congrArg Prod.fst hp
        have hrows :
            dataRows (p0 :: prest)
              (buildNames (replTab (pyStrip (pySlice c he.1 he.2))) (p0 :: prest)).length
              (c.drop de.2) = rows :=
          congrArg Prod.snd hp
        rw [hns] at hrows
        rw [← hrows] at hr
        obtain ⟨l, hl⟩ := dataRows_mem (p0 :: prest) ns.length (c.drop de.2) r hr
        have hps : (p0 :: prest) ≠ [] := by simp
        obtain ⟨t, ht1, ht2⟩ := processLine_length (p0 :: prest) hps ns.length l
        have hnl := buildNames_length (replTab (pyStrip (pySlice c he.1 he.2)))
          (p0 :: prest) hps
        rw [hns] at hnl
        rw [hl, ht2]
        omega

/-- C2 amended witness: the bound applied to `c2doc`, whose single row has
one cell more than the column-name count. -/
theorem c2_row_length_bounds_witness :
    ([some "11".toList, some [], some "33".toList] : List (Option (List Char))).length =
        (["A".toList, "Column2".toList] : List (List Char)).length ∨
      ([some "11".toList, some [], some "33".toList] : List (Option (List Char))).length =
        (["A".toList, "Column2".toList] : List (List Char)).length + 1 :=
  c2_row_length_bounds c2doc ["A".toList, "Column2".toList]
    [[some "11".toList, some [], some "33".toList]]
    [some "11".toList, some [], some "33".toList] (by decide) (by decide)

/-- C3 counterexample: `c3doc` has the whitespace-separated token line
"A B" as its first line, yet header detection fails (the final token of a
candidate line must itself be followed by whitespace, and backtracking
may leave no line end reachable), and parsing returns no table; moreover
on `c3doc2` the selected match spans both physical lines, since `\s` also
consumes newlines. -/
theorem c3_token_line_not_selected :
    (∃ l, l ∈ splitNl c3doc ∧ (l.any fun ch => !wsChar ch) = true) ∧
    findHeaderMatch c3doc = none ∧ parseRpt c3doc = none ∧
    findHeaderMatch c3doc2 = some (0, 12) ∧ '\n' ∈ pySlice c3doc2 0 12 := by
  exact ⟨⟨"A B".toList, by decide, by decide⟩, by decide, by decide, by decide, by decide⟩

/-- C3 amended: header detection returns the leftmost line start at which
`\s*(\S+\s+)+$` matches, where whitespace includes newlines — the match
may span several physical lines, and a document containing a token-only
line can still fail; when no line start matches, the parser returns the
no-result sentinel. -/
theorem c3_header_detection_amended :
    (∀ c : List Char, findHeaderMatch c = none → parseRpt c = none) ∧
    (∀ (c : List Char) (p e : Nat), findHeaderMatch c = some (p, e) →
      headerMatchAt c p = some e ∧
      ∃ pre suf, lineStarts c = pre ++ p :: suf ∧ ∀ q ∈ pre, headerMatchAt c q = none) := by
  constructor
  · intro c h
    unfold parseRpt
    rw [h]
  · intro c p e h
    obtain ⟨h1, pre, suf, h2, h3⟩ := firstMatch_split (headerMatchAt c) (lineStarts c) p e h
    exact ⟨h1, pre, suf, h2, h3⟩

/-- C3 amended witness: failure propagation on a one-token document, and
the match of `c3doc2` at line start 0 ending at offset 12. -/
theorem c3_header_detection_amended_witness :
    parseRpt "*".toList = none ∧ headerMatchAt c3doc2 0 = some 12 := by
  constructor
  · exact c3_header_detection_amended.1 ("*".toList) (by decide)
  · exact (c3_header_detection_amended.2 c3doc2 0 12 (by decide)).1

/-- C4 counterexample: in `c4doc` the only line consisting purely of
whitespace-separated dash runs is "-- --" (runs (0,2) and (3,5)), but the
detector matches at the earlier line "-- junk" — whose text is not made
of dash runs only — and the resulting spans are just [(0,2)]. -/
theorem c4_nondash_line_selected :
    findDashMatch c4doc = some (2, 5) ∧
    pySlice c4doc 2 5 = "-- ".toList ∧
    dashRuns (replTab (pySlice c4doc 2 5)) 0 = [(0, 2)] ∧
    "-- --".toList ∈ splitNl c4doc ∧
    ("-- --".toList.all fun ch => ch = '-' || wsChar ch) = true ∧
    dashRuns "-- --".toList 0 = [(0, 2), (3, 5)] := by
  exact ⟨by decide, by decide, by decide, by decide, by decide, by decide⟩

/-- C4 amended: separator detection returns the leftmost line start at
which `\s*([-]+\s+)+` matches — the line need only begin (after optional
whitespace) with a dash run followed by whitespace, and the matched text
may cover only part of the line or extend onto later lines; each maximal
dash run of the matched text yields one span, in order; on the dash line
"---- --- ------" followed by a newline and a non-dash line the spans are
exactly (0,4), (5,8), (9,15). -/
theorem c4_dash_detection_amended :
    (∀ (c : List Char) (p e : Nat), findDashMatch c = some (p, e) →
      dashMatchAt c p = some e ∧
      ∃ pre suf, lineStarts c = pre ++ p :: suf ∧ ∀ q ∈ pre, dashMatchAt c q = none) ∧
    (findDashMatch c4doc2 = some (2, 18) ∧
      dashRuns (replTab (pySlice c4doc2 2 18)) 0 = [(0, 4), (5, 8), (9, 15)]) := by
  constructor
  · intro c p e h
    obtain ⟨h1, pre, suf, h2, h3⟩ := firstMatch_split (dashMatchAt c) (lineStarts c) p e h
    exact ⟨h1, pre, suf, h2, h3⟩
  · exact ⟨by decide, by decide⟩

/-- C4 amended witness: the leftmost-match characterization applied to
`c4doc2`. -/
theorem c4_dash_detection_amended_witness :
    dashMatchAt c4doc2 2 = some 18 := by
  exact (c4_dash_detection_amended.1 c4doc2 2 18 (by decide)).1

/-- C10: a dash run is captured only when at least one whitespace
character follows it: the matched separator text always ends in
whitespace.  Hence in `c10doc` the final dash run, which ends the text,
is not among the spans, and `c10doc2`, whose only dash run ends the text,
has no separator line at all and yields no table. -/
theorem c10_dash_run_requires_ws :
    (∀ (c : List Char) (p e : Nat), dashMatchAt c p = some e →
      1 ≤ e ∧ e ≤ c.length ∧ ∃ ch, c.get? (e - 1) = some ch ∧ wsChar ch = true) ∧
    (findDashMatch c10doc = some (4, 9) ∧
      dashRuns (replTab (pySlice c10doc 4 9)) 0 = [(0, 4)]) ∧
    (findDashMatch c10doc2 = none ∧ parseRpt c10doc2 = none) := by
  refine ⟨?_, ⟨by decide, by decide⟩, ⟨by decide, by decide⟩⟩
  intro c p e h
  unfold dashMatchAt at h
  dsimp only at h
  cases hl : (dashPairs c (p + runLen wsChar (c.drop p))).getLast? with
  | none => rw [hl] at h; cases h
  | some pr =>
    rw [hl] at h
    injection h with h
    subst h
    have hmem : pr ∈ dashPairs c (p + runLen wsChar (c.drop p)) :=
      List.mem_of_getLast?_eq_some hl
    obtain ⟨h1, h2, h3⟩ := dashPairsF_props c (c.length + 1)
      (p + runLen wsChar (c.drop p)) pr hmem
    exact ⟨by omega, h2, h3 (pr.2 - 1) (by omega) (by omega)⟩

/-- C10 witness: the whitespace-ending property applied to the match of
`c10doc` at line start 4. -/
theorem c10_dash_run_requires_ws_witness :
    1 ≤ 9 ∧ 9 ≤ c10doc.length ∧
      ∃ ch, c10doc.get? (9 - 1) = some ch ∧ wsChar ch = true := by
  exact c10_dash_run_requires_ws.1 c10doc 4 9 (by decide)

/-- C5 counterexample: on `c5doc` the gap between span 0's end and
span 1's start is blank, so span 1's name falls back to the placeholder —
and the code numbers it "Column2" (N = i + 1 for span index i = 1), not
"Column3" as N = i + 2 would give. -/
theorem c5_placeholder_numbering :
    ∃ ns rows, parseRpt c5doc = some (ns, rows) ∧
      ns.get? 1 = some "Column2".toList ∧
      "Column2".toList ≠ "Column3".toList := by
  exact ⟨["AA".toList, "Column2".toList, "-- --\nx".toList],
    [[some "x".toList, none, none]], by decide, by decide, by decide⟩

/-- C5 amended: name 0 is header[0 : span0.end] trimmed (clipped); for
span i ≥ 1 the name is the trimmed gap header[span(i-1).end :
span(i).start] clipped to the header length, falling back to the
placeholder "ColumnN" with N = i + 1 whenever the header is too short or
the gap trims to nothing; and non-blank trimmed header text after the
last span's end is appended as one additional trailing name. -/
theorem c5_column_names_amended :
    ∀ (hdr : List Char) (ps : List (Nat × Nat)), ps ≠ [] →
      ((buildNames hdr ps)[0]? =
        some (pyStrip (pySlice hdr 0 (min (ps.headD (0, 0)).2 hdr.length)))) ∧
      (∀ i, 1 ≤ i → i < ps.length →
        (buildNames hdr ps)[i]? = some (midName hdr ps i)) ∧
      (∀ i, 1 ≤ i →
        (hdr.length ≤ (ps.getD (i - 1) (0, 0)).2 ∨
          pyStrip (pySlice hdr (ps.getD (i - 1) (0, 0)).2
            (min (ps.getD i (0, 0)).1 hdr.length)) = []) →
        midName hdr ps i = columnPlaceholder (i + 1)) ∧
      ((ps.getLastD (0, 0)).2 < hdr.length →
        pyStrip (hdr.drop (ps.getLastD (0, 0)).2) ≠ [] →
        (buildNames hdr ps)[ps.length]? =
          some (pyStrip (hdr.drop (ps.getLastD (0, 0)).2))) := by
  intro hdr ps hps
  have hP : 1 ≤ ps.length := List.length_pos.mpr hps
  refine ⟨?_, ?_, ?_, ?_⟩
  · unfold buildNames
    dsimp only
    split
    · split
      · simp
      · rw [List.getElem?_append_left (by simp)]
        simp
    · simp
  · intro i h1 h2
    obtain ⟨k, rfl⟩ : ∃ k, i = k + 1 := ⟨i - 1, by omega⟩
    have hmid : (pyStrip (pySlice hdr 0 (min (ps.headD (0, 0)).2 hdr.length)) ::
        List.map (midName hdr ps) (List.range' 1 (ps.length - 1)))[k + 1]? =
        some (midName hdr ps (k + 1)) := by
      rw [List.getElem?_cons_succ, List.getElem?_map,
        List.getElem?_range' 1 1 (by omega)]
      simp [Nat.add_comm]
    unfold buildNames
    dsimp only
    split
    · split
      · exact hmid
      · rw [List.getElem?_append_left (by simp [List.length_range']; omega)]
        exact hmid
    · exact hmid
  · intro i h1 hodd
    unfold midName
    dsimp only
    rcases hodd with hshort | hempty
    · rw [if_neg (by omega)]
    · by_cases hstart : (ps.getD (i - 1) (0, 0)).2 < hdr.length
      · rw [if_pos hstart, if_pos hempty]
      · rw [if_neg hstart]
  · intro hlt hne
    unfold buildNames
    dsimp only
    rw [if_pos hlt, if_neg hne]
    rw [List.getElem?_append_right (by simp [List.length_range']; omega)]
    simp only [List.length_cons, List.length_map, List.length_range']
    have hidx : ps.length - (ps.length - 1 + 1) = 0 := by omega
    rw [hidx]
    simp

/-- C5 amended witness: with header "AA" and spans (0,2),(3,5) the header
is too short for span 1, whose name is the placeholder numbered 2. -/
theorem c5_column_names_amended_witness :
    (buildNames "AA".toList [(0, 2), (3, 5)])[1]? =
      some (midName "AA".toList [(0, 2), (3, 5)] 1) ∧
    midName "AA".toList [(0, 2), (3, 5)] 1 = columnPlaceholder 2 := by
  have h := c5_column_names_amended "AA".toList [(0, 2), (3, 5)] (by decide)
  exact ⟨h.2.1 1 (by decide) (by decide), h.2.2.1 1 (by decide) (Or.inl (by decide))⟩
